import Mathlib

/-!
Verification of the room state synchronization core of the
modern-radio-party repository (socket.io server, `server/index.js`,
and the client-side membership rendering in `src/pages/Room.tsx`).

The server keeps a process-wide `rooms` map from room identifier to a
mutable room record and mutates it in socket event handlers.  We embed
the room record, the JavaScript `Map` operations used on it (insertion
order preserving `set` / `get` / `delete`), and each event handler as a
pure function from the pre-state to the post-state paired with the list
of outbound emits the handler performs, in order.  A handler that can
throw an uncaught exception (which would be fatal to the node process)
is embedded with an `Option` result, `none` marking the throw.
-/

set_option autoImplicit false

namespace RadioParty

/-- A queued/playing media item, as built by `getVideoDetails` plus the
`addedBy` attribution stamped on it by the `addSong` handler. -/
structure Song where
  id : String
  title : String
  thumbnail : String
  duration : String
  addedBy : String
deriving DecidableEq, Repr

/-- A theme value as stored in `room.theme`. -/
structure Theme where
  id : String
  name : String
  bgColor : String
  textColor : String
  accentColor : String
  secondaryColor : String
deriving DecidableEq, Repr

/-- A participant entry, as stored in `room.users`. -/
structure User where
  name : String
  isHost : Bool
deriving DecidableEq, Repr

/-- JavaScript `Map.prototype.set`: update the value in place when the
key is present (keeping insertion order), otherwise append. -/
def jsMapSet {α : Type} : List (String × α) → String → α → List (String × α)
  | [], k, v => [(k, v)]
  | (k', v') :: rest, k, v =>
    if k' = k then (k, v) :: rest else (k', v') :: jsMapSet rest k v

/-- JavaScript `Map.prototype.get` (first entry with the key). -/
def jsMapGet {α : Type} : List (String × α) → String → Option α
  | [], _ => none
  | (k', v) :: rest, k => if k' = k then some v else jsMapGet rest k

/-- JavaScript `Map.prototype.delete` (removes the entry with the key;
reachable maps hold at most one entry per key). -/
def jsMapDelete {α : Type} : List (String × α) → String → List (String × α)
  | [], _ => []
  | (k', v) :: rest, k => if k' = k then rest else (k', v) :: jsMapDelete rest k

/-- `Array.from(map.values())`. -/
def mapValues {α : Type} (m : List (String × α)) : List α := m.map Prod.snd

/-- The per-room record kept in the server's `rooms` map. -/
structure Room where
  host : Option String
  playlist : List Song
  currentSong : Option Song
  isPlaying : Bool
  currentTime : Int
  users : List (String × User)
  lastUpdateTime : Nat
  theme : Theme
  isDynamicTheme : Bool
deriving DecidableEq, Repr

/-- Delivery target of an outbound emit: `io.to(roomId)` reaches every
connection currently joined to the room; `io.to(socketId)` / a direct
`socket.emit` reaches one connection.  The socket id is `Option` because
`requestSync` passes `room.host`, which can be `null`. -/
inductive Target where
  | toRoom (roomId : String)
  | toSock (sid : Option String)
deriving DecidableEq, Repr

/-- Outbound event payloads of the server. -/
inductive Payload where
  | userList (users : List User) (count : Nat)
  | roomState (currentSong : Option Song) (isPlaying : Bool) (currentTime : Int)
      (playlist : List Song) (theme : Theme) (isDynamicTheme : Bool)
  | message (user : String) (text : String) (timestamp : Int)
  | songChange (song : Option Song)
  | playlistUpdate (playlist : List Song)
  | themeUpdate (theme : Theme) (isDynamicTheme : Bool)
  | dynamicThemeUpdate (isDynamic : Bool)
  | playbackState (isPlaying : Bool) (currentTime : Int)
  | syncRequest (userId : String)
  | sync (currentTime : Int) (isPlaying : Bool)
  | roomClosed
deriving DecidableEq, Repr

/-- One outbound emit: a target and a payload. -/
structure Emit where
  target : Target
  payload : Payload
deriving DecidableEq, Repr

/-- Result of `getVideoDetails` (resolved metadata, or the placeholder
built in its catch branch — either way a total record). -/
structure LookupResult where
  id : String
  title : String
  thumbnail : String
  duration : String
deriving DecidableEq, Repr

/-- The `addSong` handler: host-only; appends the resolved song (stamped
with the sender's name) to the playlist, promotes it to current song when
there is none, and broadcasts `songChange` (if promoted) then
`playlistUpdate`. -/
def addSong (room : Room) (roomId senderId senderName : String)
    (lookup : LookupResult) : Room × List Emit :=
  if room.host = some senderId then
    let songDetails : Song :=
      { id := lookup.id, title := lookup.title, thumbnail := lookup.thumbnail,
        duration := lookup.duration, addedBy := senderName }
    let room1 := { room with playlist := room.playlist ++ [songDetails] }
    match room1.currentSong with
    | none =>
        let room2 := { room1 with currentSong := some songDetails }
        (room2, [⟨Target.toRoom roomId, Payload.songChange (some songDetails)⟩,
                 ⟨Target.toRoom roomId, Payload.playlistUpdate room2.playlist⟩])
    | some _ =>
        (room1, [⟨Target.toRoom roomId, Payload.playlistUpdate room1.playlist⟩])
  else (room, [])

/-- The `updatePlaylist` handler: host-only wholesale queue replacement,
broadcasting `playlistUpdate`. -/
def updatePlaylist (room : Room) (roomId senderId : String)
    (playlist : List Song) : Room × List Emit :=
  if room.host = some senderId then
    ({ room with playlist := playlist },
     [⟨Target.toRoom roomId, Payload.playlistUpdate playlist⟩])
  else (room, [])

/-- An inbound theme object before validation: each required attribute
may be absent (`none`) or present. -/
structure ThemeMsg where
  id : Option String
  name : Option String
  bgColor : Option String
  textColor : Option String
  accentColor : Option String
  secondaryColor : Option String
deriving DecidableEq, Repr

/-- JavaScript truthiness of an optional string attribute (`undefined`,
`null` and `""` are falsy). -/
def truthy : Option String → Bool
  | none => false
  | some s => s ≠ ""

/-- The handler's validity check
`theme.id && theme.name && theme.bgColor && theme.textColor && theme.accentColor && theme.secondaryColor`. -/
def themeMsgValid (m : ThemeMsg) : Bool :=
  truthy m.id && truthy m.name && truthy m.bgColor && truthy m.textColor &&
    truthy m.accentColor && truthy m.secondaryColor

/-- The theme value stored when the check passes (all attributes are
present then, so the defaults are never read). -/
def themeOfMsg (m : ThemeMsg) : Theme :=
  { id := m.id.getD "", name := m.name.getD "", bgColor := m.bgColor.getD "",
    textColor := m.textColor.getD "", accentColor := m.accentColor.getD "",
    secondaryColor := m.secondaryColor.getD "" }

/-- The `updateTheme` handler: host-only; a theme with all required
attributes present replaces `room.theme`, sets
`isDynamicTheme = (theme.id === 'dynamic')` and broadcasts `themeUpdate`;
a malformed theme is dropped without mutation or broadcast. -/
def updateTheme (room : Room) (roomId senderId : String)
    (msg : ThemeMsg) : Room × List Emit :=
  if room.host = some senderId then
    if themeMsgValid msg then
      let t := themeOfMsg msg
      let dyn := t.id = "dynamic"
      ({ room with theme := t, isDynamicTheme := dyn },
       [⟨Target.toRoom roomId, Payload.themeUpdate t dyn⟩])
    else (room, [])
  else (room, [])

/-- The `toggleDynamicTheme` handler: host-only flag set, broadcasting
`dynamicThemeUpdate`. -/
def toggleDynamicTheme (room : Room) (roomId senderId : String)
    (isDynamic : Bool) : Room × List Emit :=
  if room.host = some senderId then
    ({ room with isDynamicTheme := isDynamic },
     [⟨Target.toRoom roomId, Payload.dynamicThemeUpdate isDynamic⟩])
  else (room, [])

/-- Payload of an inbound `playbackState` event. -/
structure PlaybackMsg where
  isPlaying : Bool
  currentTime : Int
deriving DecidableEq, Repr

/-- The `playbackState` handler: host-only; records flag, position and
the current wall-clock time, and broadcasts the state. -/
def playbackState (room : Room) (roomId senderId : String)
    (st : PlaybackMsg) (now : Nat) : Room × List Emit :=
  if room.host = some senderId then
    ({ room with isPlaying := st.isPlaying, currentTime := st.currentTime,
                 lastUpdateTime := now },
     [⟨Target.toRoom roomId, Payload.playbackState st.isPlaying st.currentTime⟩])
  else (room, [])

/-- `playlist.findIndex(song => song.id === room.currentSong.id)` followed
by `splice(currentIndex, 1)` when found: remove the first entry whose id
matches, leave the list unchanged when none matches. -/
def removeFirstById : List Song → String → List Song
  | [], _ => []
  | s :: rest, targetId =>
    if s.id = targetId then rest else s :: removeFirstById rest targetId

/-- The `songEnded` handler.  Guard: sender is host and the playlist is
non-empty.  It then reads `room.currentSong.id`; when `currentSong` is
`null` this throws an uncaught `TypeError` (fatal to the process),
embedded as `none`.  Otherwise it removes the current song from the
playlist by id, promotes the new head (or `null`) to current song, and
broadcasts `songChange` then `playlistUpdate`. -/
def songEnded (room : Room) (roomId senderId : String) :
    Option (Room × List Emit) :=
  if room.host = some senderId ∧ 0 < room.playlist.length then
    match room.currentSong with
    | none => none
    | some cur =>
      match removeFirstById room.playlist cur.id with
      | next :: rest =>
          some ({ room with playlist := next :: rest, currentSong := some next },
            [⟨Target.toRoom roomId, Payload.songChange (some next)⟩,
             ⟨Target.toRoom roomId, Payload.playlistUpdate (next :: rest)⟩])
      | [] =>
          some ({ room with playlist := [], currentSong := none },
            [⟨Target.toRoom roomId, Payload.songChange none⟩,
             ⟨Target.toRoom roomId, Payload.playlistUpdate []⟩])
  else some (room, [])

/-- The `message` handler: stateless relay to the whole room, stamped
with the sender's display name. -/
def messageRelay (room : Room) (roomId senderName : String)
    (text : String) (timestamp : Int) : Room × List Emit :=
  (room, [⟨Target.toRoom roomId, Payload.message senderName text timestamp⟩])

/-- The `requestSync` handler: a non-host sender causes a single
`syncRequest{userId}` targeted at `room.host`. -/
def requestSync (room : Room) (senderId : String) : Room × List Emit :=
  if room.host = some senderId then (room, [])
  else (room, [⟨Target.toSock room.host, Payload.syncRequest senderId⟩])

/-- Payload of an inbound `syncResponse` event. -/
structure SyncMsg where
  userId : String
  currentTime : Int
  isPlaying : Bool
deriving DecidableEq, Repr

/-- The `syncResponse` handler: host-only; relays a single targeted
`sync` to the connection named in the payload. -/
def syncResponse (room : Room) (senderId : String)
    (data : SyncMsg) : Room × List Emit :=
  if room.host = some senderId then
    (room, [⟨Target.toSock (some data.userId), Payload.sync data.currentTime data.isPlaying⟩])
  else (room, [])

/-- Inbound events of an established connection (the sender's socket id
and display name are captured by the connection closure and passed to
`applyEvent` separately). -/
inductive Event where
  | addSong (lookup : LookupResult)
  | updatePlaylist (playlist : List Song)
  | updateTheme (msg : ThemeMsg)
  | toggleDynamicTheme (isDynamic : Bool)
  | playbackState (st : PlaybackMsg) (now : Nat)
  | songEnded
  | message (text : String) (timestamp : Int)
  | requestSync
  | syncResponse (data : SyncMsg)
deriving DecidableEq, Repr

/-- Dispatch one inbound event on a room; `none` marks a handler that
throws (only possible for `songEnded`). -/
def applyEvent (room : Room) (roomId senderId senderName : String) :
    Event → Option (Room × List Emit)
  | Event.addSong lookup => some (addSong room roomId senderId senderName lookup)
  | Event.updatePlaylist pl => some (updatePlaylist room roomId senderId pl)
  | Event.updateTheme m => some (updateTheme room roomId senderId m)
  | Event.toggleDynamicTheme b => some (toggleDynamicTheme room roomId senderId b)
  | Event.playbackState st now => some (playbackState room roomId senderId st now)
  | Event.songEnded => songEnded room roomId senderId
  | Event.message text ts => some (messageRelay room roomId senderName text ts)
  | Event.requestSync => some (requestSync room senderId)
  | Event.syncResponse d => some (syncResponse room senderId d)

/-- The six mutating inbound events (everything except chat relay and
the sync protocol events). -/
def isMutating : Event → Bool
  | Event.addSong _ => true
  | Event.updatePlaylist _ => true
  | Event.updateTheme _ => true
  | Event.toggleDynamicTheme _ => true
  | Event.playbackState _ _ => true
  | Event.songEnded => true
  | _ => false

/-- Events whose handler writes the playback fields
(`isPlaying`/`currentSong` interaction). -/
def touchesPlayback : Event → Bool
  | Event.playbackState _ _ => true
  | Event.songEnded => true
  | _ => false

/-- The fixed built-in default theme assigned at room construction. -/
def defaultTheme : Theme :=
  { id := "dark", name := "Dark Mode", bgColor := "from-gray-900 to-black",
    textColor := "text-white", accentColor := "blue", secondaryColor := "gray" }

/-- The room record constructed when a connection references an unknown
room identifier. -/
def freshRoom (socketId : String) (isHost : Bool) (now : Nat) : Room :=
  { host := if isHost then some socketId else none,
    playlist := [], currentSong := none, isPlaying := false, currentTime := 0,
    users := [], lastUpdateTime := now, theme := defaultTheme,
    isDynamicTheme := false }

/-- The process-wide `rooms` map. -/
abbrev Registry := List (String × Room)

/-- The connection handler: create the room if absent, add the
participant, reassign the host on a host-claiming join, broadcast the
membership snapshot (raw values list and raw count) to the room, and
send the full room state to the joining socket only. -/
def handleConnection (rooms : Registry) (roomId socketId userName : String)
    (isHost : Bool) (now : Nat) : Registry × List Emit :=
  let room0 := match jsMapGet rooms roomId with
    | some r => r
    | none => freshRoom socketId isHost now
  let room1 := { room0 with
    users := jsMapSet room0.users socketId { name := userName, isHost := isHost } }
  let room2 := if isHost then { room1 with host := some socketId } else room1
  (jsMapSet rooms roomId room2,
   [⟨Target.toRoom roomId, Payload.userList (mapValues room2.users) room2.users.length⟩,
    ⟨Target.toSock (some socketId),
      Payload.roomState room2.currentSong room2.isPlaying room2.currentTime
        room2.playlist room2.theme room2.isDynamicTheme⟩])

/-- The `disconnect` handler: remove the participant, re-broadcast the
membership snapshot, and — when the departing socket was the host —
delete the room from the registry and emit `roomClosed` to the room
(i.e. to every remaining participant; the departing socket has already
left the room). -/
def handleDisconnect (rooms : Registry) (roomId socketId : String) :
    Registry × List Emit :=
  match jsMapGet rooms roomId with
  | none => (rooms, [])
  | some room =>
    let room1 := { room with users := jsMapDelete room.users socketId }
    let snapshot : Emit :=
      ⟨Target.toRoom roomId, Payload.userList (mapValues room1.users) room1.users.length⟩
    if room1.host = some socketId then
      (jsMapDelete rooms roomId, [snapshot, ⟨Target.toRoom roomId, Payload.roomClosed⟩])
    else
      (jsMapSet rooms roomId room1, [snapshot])

/-- The client-side `userList` reducer step from `Room.tsx`: push the
user onto the accumulator unless a user with the same name is already
there. -/
def dedupStep (acc : List User) (user : User) : List User :=
  match acc.find? (fun u => u.name = user.name) with
  | some _ => acc
  | none => acc ++ [user]

/-- The client-side deduplication of the received membership snapshot
(`roomUsers.reduce(..., [])`). -/
def uniqueUsers (roomUsers : List User) : List User :=
  roomUsers.foldl dedupStep []

/-! ### Basic lemmas about the JavaScript `Map` embedding -/

theorem jsMapGet_set_self {α : Type} (m : List (String × α)) (k : String) (v : α) :
    jsMapGet (jsMapSet m k v) k = some v := by
  induction m with
  | nil => simp [jsMapSet, jsMapGet]
  | cons p rest ih =>
    obtain ⟨k', v'⟩ := p
    by_cases h : k' = k <;> simp [jsMapSet, jsMapGet, h, ih]

theorem jsMapGet_set_of_ne {α : Type} (m : List (String × α)) (k k' : String) (v : α)
    (h : k ≠ k') : jsMapGet (jsMapSet m k v) k' = jsMapGet m k' := by
  induction m with
  | nil => simp [jsMapSet, jsMapGet, h]
  | cons p rest ih =>
    obtain ⟨k₀, v₀⟩ := p
    by_cases h₀ : k₀ = k
    · subst h₀
      simp [jsMapSet, jsMapGet, h]
    · simp only [jsMapSet, if_neg h₀, jsMapGet]
      by_cases h₁ : k₀ = k' <;> simp [h₁, ih]

theorem jsMapGet_delete_of_ne {α : Type} (m : List (String × α)) (k k' : String)
    (h : k ≠ k') : jsMapGet (jsMapDelete m k) k' = jsMapGet m k' := by
  induction m with
  | nil => simp [jsMapDelete]
  | cons p rest ih =>
    obtain ⟨k₀, v₀⟩ := p
    by_cases h₀ : k₀ = k
    · subst h₀
      simp [jsMapDelete, jsMapGet, h]
    · simp only [jsMapDelete, if_neg h₀, jsMapGet]
      by_cases h₁ : k₀ = k' <;> simp [h₁, ih]

theorem jsMapGet_eq_none_of_not_mem {α : Type} (m : List (String × α)) (k : String)
    (h : k ∉ m.map Prod.fst) : jsMapGet m k = none := by
  induction m with
  | nil => rfl
  | cons p rest ih =>
    obtain ⟨k₀, v₀⟩ := p
    simp only [List.map_cons, List.mem_cons, not_or] at h
    have hne : k₀ ≠ k := fun hc => h.1 hc.symm
    simp [jsMapGet, hne, ih h.2]

theorem jsMapGet_delete_self {α : Type} (m : List (String × α)) (k : String)
    (h : (m.map Prod.fst).Nodup) : jsMapGet (jsMapDelete m k) k = none := by
  induction m with
  | nil => rfl
  | cons p rest ih =>
    obtain ⟨k₀, v₀⟩ := p
    simp only [List.map_cons, List.nodup_cons] at h
    by_cases h₀ : k₀ = k
    · subst h₀
      simpa [jsMapDelete] using jsMapGet_eq_none_of_not_mem rest k₀ h.1
    · simp [jsMapDelete, jsMapGet, h₀, ih h.2]

theorem jsMapGet_mem {α : Type} (m : List (String × α)) (k : String) (v : α)
    (h : jsMapGet m k = some v) : (k, v) ∈ m := by
  induction m with
  | nil => simp [jsMapGet] at h
  | cons p rest ih =>
    obtain ⟨k₀, v₀⟩ := p
    by_cases h₀ : k₀ = k
    · subst h₀
      simp [jsMapGet] at h
      subst h
      exact List.mem_cons_self _ _
    · simp only [jsMapGet, if_neg h₀] at h
      exact List.mem_cons_of_mem _ (ih h)

theorem mem_jsMapSet {α : Type} (m : List (String × α)) (k : String) (v : α)
    (p : String × α) (h : p ∈ jsMapSet m k v) : p ∈ m ∨ p = (k, v) := by
  induction m with
  | nil =>
    rw [jsMapSet] at h
    exact Or.inr (List.mem_singleton.mp h)
  | cons q rest ih =>
    obtain ⟨k₀, v₀⟩ := q
    by_cases h₀ : k₀ = k
    · subst h₀
      rw [jsMapSet, if_pos rfl] at h
      rcases List.mem_cons.mp h with h1 | h1
      · exact Or.inr h1
      · exact Or.inl (List.mem_cons_of_mem _ h1)
    · rw [jsMapSet, if_neg h₀] at h
      rcases List.mem_cons.mp h with h1 | h1
      · exact Or.inl (List.mem_cons.mpr (Or.inl h1))
      · rcases ih h1 with h2 | h2
        · exact Or.inl (List.mem_cons_of_mem _ h2)
        · exact Or.inr h2

theorem mem_of_mem_jsMapDelete {α : Type} (m : List (String × α)) (k : String)
    (p : String × α) (h : p ∈ jsMapDelete m k) : p ∈ m := by
  induction m with
  | nil => exact h
  | cons q rest ih =>
    obtain ⟨k₀, v₀⟩ := q
    by_cases h₀ : k₀ = k
    · subst h₀
      rw [jsMapDelete, if_pos rfl] at h
      exact List.mem_cons_of_mem _ h
    · rw [jsMapDelete, if_neg h₀] at h
      rcases List.mem_cons.mp h with h1 | h1
      · exact List.mem_cons.mpr (Or.inl h1)
      · exact List.mem_cons_of_mem _ (ih h1)

theorem jsMapSet_length_of_get_none {α : Type} (m : List (String × α)) (k : String)
    (v : α) (h : jsMapGet m k = none) : (jsMapSet m k v).length = m.length + 1 := by
  induction m with
  | nil => rfl
  | cons p rest ih =>
    obtain ⟨k₀, v₀⟩ := p
    by_cases h₀ : k₀ = k
    · simp [jsMapGet, h₀] at h
    · simp only [jsMapGet, if_neg h₀] at h
      simp [jsMapSet, if_neg h₀, ih h]

/-! ### Lemmas about the client-side name deduplication -/

theorem mem_dedupStep {acc : List User} {u w : User} (h : w ∈ dedupStep acc u) :
    w ∈ acc ∨ (w = u ∧ ∀ v ∈ acc, v.name ≠ u.name) := by
  unfold dedupStep at h
  cases hf : List.find? (fun v => v.name = u.name) acc with
  | some x =>
    rw [hf] at h
    exact Or.inl h
  | none =>
    rw [hf] at h
    rcases List.mem_append.mp h with h1 | h1
    · exact Or.inl h1
    · refine Or.inr ⟨List.mem_singleton.mp h1, fun v hv => ?_⟩
      exact fun hc => (List.find?_eq_none.mp hf v hv) (by simp [hc])

theorem mem_dedupStep_of_mem {acc : List User} (u : User) {w : User}
    (h : w ∈ acc) : w ∈ dedupStep acc u := by
  unfold dedupStep
  cases List.find? (fun v => v.name = u.name) acc with
  | some x => exact h
  | none => exact List.mem_append_left _ h

theorem exists_name_dedupStep (acc : List User) (u : User) :
    ∃ v ∈ dedupStep acc u, v.name = u.name := by
  unfold dedupStep
  cases hf : List.find? (fun v => v.name = u.name) acc with
  | some x =>
    have hx := List.find?_some hf
    simp only [decide_eq_true_eq] at hx
    exact ⟨x, List.mem_of_find?_eq_some hf, hx⟩
  | none => exact ⟨u, by simp, rfl⟩

theorem mem_foldl_dedupStep :
    ∀ (l acc : List User) (w : User), w ∈ l.foldl dedupStep acc →
      w ∈ acc ∨ (w ∈ l ∧ (∀ v ∈ acc, v.name ≠ w.name) ∧
        l.find? (fun v => v.name = w.name) = some w) := by
  intro l
  induction l with
  | nil => intro acc w h; exact Or.inl h
  | cons u rest ih =>
    intro acc w h
    rcases ih (dedupStep acc u) w h with h1 | ⟨hw, hacc, hfind⟩
    · rcases mem_dedupStep h1 with h2 | ⟨rfl, hnames⟩
      · exact Or.inl h2
      · refine Or.inr ⟨List.mem_cons_self _ _, hnames, ?_⟩
        simp [List.find?_cons]
    · have hu : u.name ≠ w.name := by
        obtain ⟨v, hv, hvn⟩ := exists_name_dedupStep acc u
        exact hvn ▸ hacc v hv
      refine Or.inr ⟨List.mem_cons_of_mem _ hw, ?_, ?_⟩
      · exact fun v hv => hacc v (mem_dedupStep_of_mem u hv)
      · simpa [List.find?_cons, hu] using hfind

theorem nodup_names_foldl_dedupStep :
    ∀ (l acc : List User), (acc.map User.name).Nodup →
      ((l.foldl dedupStep acc).map User.name).Nodup := by
  intro l
  induction l with
  | nil => intro acc h; exact h
  | cons u rest ih =>
    intro acc h
    refine ih (dedupStep acc u) ?_
    unfold dedupStep
    cases hf : List.find? (fun v => v.name = u.name) acc with
    | some x => exact h
    | none =>
      have hn : ∀ v ∈ acc, v.name ≠ u.name := by
        intro v hv hc
        exact (List.find?_eq_none.mp hf v hv) (by simp [hc])
      simp only [List.map_append, List.map_cons, List.map_nil]
      rw [List.nodup_append]
      refine ⟨h, List.nodup_singleton _, ?_⟩
      intro a ha hb
      simp only [List.mem_singleton] at hb
      subst hb
      obtain ⟨v, hv, hvn⟩ := List.mem_map.mp ha
      exact hn v hv hvn

theorem mem_foldl_dedupStep_of_mem :
    ∀ (l acc : List User) (w : User), w ∈ acc → w ∈ l.foldl dedupStep acc := by
  intro l
  induction l with
  | nil => intro acc w h; exact h
  | cons u rest ih =>
    intro acc w h
    exact ih (dedupStep acc u) w (mem_dedupStep_of_mem u h)

theorem name_covered_foldl_dedupStep :
    ∀ (l acc : List User) (u : User), u ∈ l →
      ∃ v ∈ l.foldl dedupStep acc, v.name = u.name := by
  intro l
  induction l with
  | nil => intro acc u h; exact absurd h (List.not_mem_nil u)
  | cons x rest ih =>
    intro acc u h
    rcases List.mem_cons.mp h with rfl | h1
    · obtain ⟨v, hv, hvn⟩ := exists_name_dedupStep acc u
      exact ⟨v, mem_foldl_dedupStep_of_mem rest _ v hv, hvn⟩
    · exact ih (dedupStep acc x) u h1

/-! ### Concrete fixtures for witnesses and counterexamples -/

def songA : Song :=
  { id := "a", title := "A", thumbnail := "ta", duration := "3", addedBy := "h" }

def songB : Song :=
  { id := "b", title := "B", thumbnail := "tb", duration := "4", addedBy := "h" }

/-- A room whose host "H" queued `[songA, songB]` and is playing `songA`. -/
def roomAB : Room :=
  { host := some "H", playlist := [songA, songB], currentSong := some songA,
    isPlaying := true, currentTime := 0,
    users := [("H", { name := "h", isHost := true })],
    lastUpdateTime := 0, theme := defaultTheme, isDynamicTheme := false }

/-- A room whose host "H" queued `[songA]` and is playing it. -/
def roomSolo : Room :=
  { host := some "H", playlist := [songA], currentSong := some songA,
    isPlaying := true, currentTime := 0,
    users := [("H", { name := "h", isHost := true })],
    lastUpdateTime := 0, theme := defaultTheme, isDynamicTheme := false }

/-- A freshly created host room ("H" joined an unknown room id with the
host flag). -/
def hostEmptyRoom : Room :=
  { freshRoom "H" true 0 with users := [("H", { name := "h", isHost := true })] }

/-- The room reached from `hostEmptyRoom` by a host `updatePlaylist([songA])`:
a non-empty queue with no current track. -/
def roomQueueOnly : Room :=
  (updatePlaylist hostEmptyRoom "r" "H" [songA]).1

/-- A room with host "H" and listeners "L1", "L2". -/
def roomW3 : Room :=
  { host := some "H",
    playlist := [songA], currentSong := some songA, isPlaying := true,
    currentTime := 0,
    users := [("H", { name := "h", isHost := true }),
              ("L1", { name := "l1", isHost := false }),
              ("L2", { name := "l2", isHost := false })],
    lastUpdateTime := 0, theme := defaultTheme, isDynamicTheme := false }

/-- A registry holding just `roomW3` under identifier "r". -/
def roomsW : Registry := [("r", roomW3)]

/-! ### The playback invariant and its preservation by the handlers -/

/-- The spec invariant of C1: if the current track is absent the playback
flag is false. -/
def nullImpliesNotPlaying (r : Room) : Prop :=
  r.currentSong = none → r.isPlaying = false

theorem addSong_nullInv (room : Room) (roomId senderId senderName : String)
    (lk : LookupResult) (h : nullImpliesNotPlaying room) :
    nullImpliesNotPlaying (addSong room roomId senderId senderName lk).1 := by
  unfold addSong
  by_cases hh : room.host = some senderId
  · simp only [if_pos hh]
    cases hcs : room.currentSong <;>
      simp [nullImpliesNotPlaying, hcs]
  · simpa [if_neg hh] using h

theorem updatePlaylist_nullInv (room : Room) (roomId senderId : String)
    (pl : List Song) (h : nullImpliesNotPlaying room) :
    nullImpliesNotPlaying (updatePlaylist room roomId senderId pl).1 := by
  unfold updatePlaylist
  by_cases hh : room.host = some senderId <;>
    simpa [hh, nullImpliesNotPlaying] using h

theorem updateTheme_nullInv (room : Room) (roomId senderId : String)
    (msg : ThemeMsg) (h : nullImpliesNotPlaying room) :
    nullImpliesNotPlaying (updateTheme room roomId senderId msg).1 := by
  unfold updateTheme
  by_cases hh : room.host = some senderId
  · cases hv : themeMsgValid msg <;>
      simpa [hh, hv, nullImpliesNotPlaying] using h
  · simpa [hh, nullImpliesNotPlaying] using h

theorem toggleDynamicTheme_nullInv (room : Room) (roomId senderId : String)
    (b : Bool) (h : nullImpliesNotPlaying room) :
    nullImpliesNotPlaying (toggleDynamicTheme room roomId senderId b).1 := by
  unfold toggleDynamicTheme
  by_cases hh : room.host = some senderId <;>
    simpa [hh, nullImpliesNotPlaying] using h

theorem messageRelay_nullInv (room : Room) (roomId senderName text : String)
    (ts : Int) (h : nullImpliesNotPlaying room) :
    nullImpliesNotPlaying (messageRelay room roomId senderName text ts).1 := h

theorem requestSync_nullInv (room : Room) (senderId : String)
    (h : nullImpliesNotPlaying room) :
    nullImpliesNotPlaying (requestSync room senderId).1 := by
  unfold requestSync
  by_cases hh : room.host = some senderId <;> simpa [hh] using h

theorem syncResponse_nullInv (room : Room) (senderId : String) (d : SyncMsg)
    (h : nullImpliesNotPlaying room) :
    nullImpliesNotPlaying (syncResponse room senderId d).1 := by
  unfold syncResponse
  by_cases hh : room.host = some senderId <;> simpa [hh] using h

theorem freshRoom_nullInv (socketId : String) (isHost : Bool) (now : Nat) :
    nullImpliesNotPlaying (freshRoom socketId isHost now) := by
  intro _
  rfl

theorem handleConnection_nullInv (rooms : Registry) (roomId socketId userName : String)
    (isHost : Bool) (now : Nat)
    (hinv : ∀ p ∈ rooms, nullImpliesNotPlaying p.2) :
    ∀ p ∈ (handleConnection rooms roomId socketId userName isHost now).1,
      nullImpliesNotPlaying p.2 := by
  intro p hp
  simp only [handleConnection] at hp
  rcases mem_jsMapSet _ _ _ _ hp with h1 | h1
  · exact hinv p h1
  · subst h1
    cases hg : jsMapGet rooms roomId with
    | some r =>
      have hr := hinv (roomId, r) (jsMapGet_mem _ _ _ hg)
      cases isHost <;> simp only [hg, nullImpliesNotPlaying] at hr ⊢ <;> simpa using hr
    | none =>
      cases isHost <;> simp [hg, nullImpliesNotPlaying, freshRoom]

theorem handleDisconnect_nullInv (rooms : Registry) (roomId socketId : String)
    (hinv : ∀ p ∈ rooms, nullImpliesNotPlaying p.2) :
    ∀ p ∈ (handleDisconnect rooms roomId socketId).1, nullImpliesNotPlaying p.2 := by
  intro p hp
  unfold handleDisconnect at hp
  cases hg : jsMapGet rooms roomId with
  | none =>
    rw [hg] at hp
    exact hinv p hp
  | some room =>
    rw [hg] at hp
    simp only at hp
    split at hp
    · exact hinv p (mem_of_mem_jsMapDelete _ _ _ hp)
    · rcases mem_jsMapSet _ _ _ _ hp with h1 | h1
      · exact hinv p h1
      · subst h1
        have hr := hinv (roomId, room) (jsMapGet_mem _ _ _ hg)
        simpa [nullImpliesNotPlaying] using hr

/-! ### Claim theorems -/

/-- C1 (amended).  The invariant "no current track implies not playing"
holds for a freshly constructed room and is preserved by every inbound
event handler other than `playbackState` and `songEnded`, as well as by
join and disconnect at registry level.  (The original claim is refuted
by `playbackState` and `songEnded` — see the counterexample theorem.) -/
theorem c1_null_track_pause_amended :
    (∀ (room : Room) (roomId senderId senderName : String) (e : Event)
        (r' : Room) (es : List Emit),
      touchesPlayback e = false → nullImpliesNotPlaying room →
      applyEvent room roomId senderId senderName e = some (r', es) →
      nullImpliesNotPlaying r')
    ∧ (∀ (socketId : String) (isHost : Bool) (now : Nat),
        nullImpliesNotPlaying (freshRoom socketId isHost now))
    ∧ (∀ (rooms : Registry) (roomId socketId userName : String) (isHost : Bool)
        (now : Nat),
        (∀ p ∈ rooms, nullImpliesNotPlaying p.2) →
        ∀ p ∈ (handleConnection rooms roomId socketId userName isHost now).1,
          nullImpliesNotPlaying p.2)
    ∧ (∀ (rooms : Registry) (roomId socketId : String),
        (∀ p ∈ rooms, nullImpliesNotPlaying p.2) →
        ∀ p ∈ (handleDisconnect rooms roomId socketId).1,
          nullImpliesNotPlaying p.2) := by
  refine ⟨?_, freshRoom_nullInv, handleConnection_nullInv, handleDisconnect_nullInv⟩
  intro room roomId senderId senderName e r' es ht hinv happ
  cases e with
  | addSong lk =>
    simp only [applyEvent, Option.some.injEq] at happ
    have h1 : (addSong room roomId senderId senderName lk).1 = r' := congrArg Prod.fst happ
    subst h1
    exact addSong_nullInv room roomId senderId senderName lk hinv
  | updatePlaylist pl =>
    simp only [applyEvent, Option.some.injEq] at happ
    have h1 : (updatePlaylist room roomId senderId pl).1 = r' := congrArg Prod.fst happ
    subst h1
    exact updatePlaylist_nullInv room roomId senderId pl hinv
  | updateTheme m =>
    simp only [applyEvent, Option.some.injEq] at happ
    have h1 : (updateTheme room roomId senderId m).1 = r' := congrArg Prod.fst happ
    subst h1
    exact updateTheme_nullInv room roomId senderId m hinv
  | toggleDynamicTheme b =>
    simp only [applyEvent, Option.some.injEq] at happ
    have h1 : (toggleDynamicTheme room roomId senderId b).1 = r' := congrArg Prod.fst happ
    subst h1
    exact toggleDynamicTheme_nullInv room roomId senderId b hinv
  | playbackState st now => simp [touchesPlayback] at ht
  | songEnded => simp [touchesPlayback] at ht
  | message text ts =>
    simp only [applyEvent, Option.some.injEq] at happ
    have h1 : (messageRelay room roomId senderName text ts).1 = r' := congrArg Prod.fst happ
    subst h1
    exact messageRelay_nullInv room roomId senderName text ts hinv
  | requestSync =>
    simp only [applyEvent, Option.some.injEq] at happ
    have h1 : (requestSync room senderId).1 = r' := congrArg Prod.fst happ
    subst h1
    exact requestSync_nullInv room senderId hinv
  | syncResponse d =>
    simp only [applyEvent, Option.some.injEq] at happ
    have h1 : (syncResponse room senderId d).1 = r' := congrArg Prod.fst happ
    subst h1
    exact syncResponse_nullInv room senderId d hinv

/-- C1 counterexample.  In the reachable room `roomSolo` (host "H",
queue `[songA]`, current track `songA`, playing) a host `songEnded`
leaves no current track but the playback flag still true; likewise, in a
fresh host room a host `playbackState{isPlaying: true}` sets the flag
true while no current track exists.  So the claimed invariant fails
after `songEnded` and after `playbackState`. -/
theorem c1_counterexample :
    (Option.map (fun p => (p.1.currentSong, p.1.isPlaying))
        (songEnded roomSolo "r" "H")) = some (none, true)
    ∧ (playbackState hostEmptyRoom "r" "H"
        { isPlaying := true, currentTime := 3 } 7).1.currentSong = none
    ∧ (playbackState hostEmptyRoom "r" "H"
        { isPlaying := true, currentTime := 3 } 7).1.isPlaying = true := by
  decide

/-- C1 witness: the amended preservation applied at a concrete input
(host `updatePlaylist` on the fresh host room). -/
theorem c1_null_track_pause_amended_witness :
    nullImpliesNotPlaying
      ((updatePlaylist hostEmptyRoom "r" "H" [songA]).1) :=
  c1_null_track_pause_amended.1 hostEmptyRoom "r" "H" "h"
    (Event.updatePlaylist [songA]) (updatePlaylist hostEmptyRoom "r" "H" [songA]).1
    (updatePlaylist hostEmptyRoom "r" "H" [songA]).2 rfl
    (fun _ => rfl) rfl

/-- C2.  A mutating inbound event (`addSong`, `updatePlaylist`,
`updateTheme`, `toggleDynamicTheme`, `playbackState`, `songEnded`) from a
connection that is not the room's host leaves the room unchanged and
emits nothing — in particular no error is sent to the sender. -/
theorem c2_nonhost_mutations_are_noops (room : Room)
    (roomId senderId senderName : String) (e : Event)
    (hmut : isMutating e = true) (hnh : room.host ≠ some senderId) :
    applyEvent room roomId senderId senderName e = some (room, []) := by
  cases e <;>
    simp_all [applyEvent, addSong, updatePlaylist, updateTheme,
      toggleDynamicTheme, playbackState, songEnded, isMutating]

/-- C2 witness: a non-host `updatePlaylist` on `roomAB` is a silent no-op. -/
theorem c2_nonhost_mutations_are_noops_witness :
    applyEvent roomAB "r" "X" "x" (Event.updatePlaylist []) = some (roomAB, []) :=
  c2_nonhost_mutations_are_noops roomAB "r" "X" "x" (Event.updatePlaylist []) rfl
    (by decide)

/-- C3.  A host `songEnded` with queue `[A, B]` and current track `A`
yields queue `[B]`, current track `B`, and broadcasts `songChange B`
then `playlistUpdate`; with queue `[A]` and current `A` it yields the
empty queue, no current track, and broadcasts `songChange null` then
`playlistUpdate`. -/
theorem c3_songEnded_advances_queue (room : Room) (roomId h : String)
    (A B : Song) (hh : room.host = some h) :
    (room.playlist = [A, B] → room.currentSong = some A →
      songEnded room roomId h =
        some ({ room with playlist := [B], currentSong := some B },
          [⟨Target.toRoom roomId, Payload.songChange (some B)⟩,
           ⟨Target.toRoom roomId, Payload.playlistUpdate [B]⟩]))
    ∧ (room.playlist = [A] → room.currentSong = some A →
      songEnded room roomId h =
        some ({ room with playlist := [], currentSong := none },
          [⟨Target.toRoom roomId, Payload.songChange none⟩,
           ⟨Target.toRoom roomId, Payload.playlistUpdate []⟩])) := by
  constructor
  · intro hpl hcur
    simp [songEnded, hh, hpl, hcur, removeFirstById]
  · intro hpl hcur
    simp [songEnded, hh, hpl, hcur, removeFirstById]

/-- C3 witness: the `[A, B]` case evaluated on `roomAB`. -/
theorem c3_songEnded_advances_queue_witness :
    songEnded roomAB "r" "H" =
      some ({ roomAB with playlist := [songB], currentSong := some songB },
        [⟨Target.toRoom "r", Payload.songChange (some songB)⟩,
         ⟨Target.toRoom "r", Payload.playlistUpdate [songB]⟩]) :=
  (c3_songEnded_advances_queue roomAB "r" "H" songA songB rfl).1 rfl rfl

/-- C4 (the code bug).  `roomQueueOnly` is reached from a fresh host room
by a single host `updatePlaylist([songA])`: its queue is non-empty while
the current track is `null`.  A host `songEnded` there evaluates
`room.currentSong.id` on `null` and throws an uncaught `TypeError`
(embedded as `none`), which is fatal to the process — contradicting the
spec's "nothing in this core is fatal". -/
theorem c4_songEnded_crash :
    roomQueueOnly.currentSong = none ∧ roomQueueOnly.playlist = [songA]
    ∧ applyEvent roomQueueOnly "r" "H" "h" Event.songEnded = none := by
  decide

/-! ### Per-operation host-field lemmas (for C6) -/

theorem addSong_host (room : Room) (roomId senderId senderName : String)
    (lk : LookupResult) :
    (addSong room roomId senderId senderName lk).1.host = room.host := by
  unfold addSong
  by_cases hh : room.host = some senderId
  · simp only [if_pos hh]
    cases hcs : room.currentSong <;> simp [hcs]
  · simp [if_neg hh]

theorem updatePlaylist_host (room : Room) (roomId senderId : String)
    (pl : List Song) :
    (updatePlaylist room roomId senderId pl).1.host = room.host := by
  unfold updatePlaylist
  by_cases hh : room.host = some senderId <;> simp [hh]

theorem updateTheme_host (room : Room) (roomId senderId : String) (msg : ThemeMsg) :
    (updateTheme room roomId senderId msg).1.host = room.host := by
  unfold updateTheme
  by_cases hh : room.host = some senderId
  · cases hv : themeMsgValid msg <;> simp [hh, hv]
  · simp [hh]

theorem toggleDynamicTheme_host (room : Room) (roomId senderId : String) (b : Bool) :
    (toggleDynamicTheme room roomId senderId b).1.host = room.host := by
  unfold toggleDynamicTheme
  by_cases hh : room.host = some senderId <;> simp [hh]

theorem playbackState_host (room : Room) (roomId senderId : String)
    (st : PlaybackMsg) (now : Nat) :
    (playbackState room roomId senderId st now).1.host = room.host := by
  unfold playbackState
  by_cases hh : room.host = some senderId <;> simp [hh]

theorem requestSync_host (room : Room) (senderId : String) :
    (requestSync room senderId).1.host = room.host := by
  unfold requestSync
  by_cases hh : room.host = some senderId <;> simp [hh]

theorem syncResponse_host (room : Room) (senderId : String) (d : SyncMsg) :
    (syncResponse room senderId d).1.host = room.host := by
  unfold syncResponse
  by_cases hh : room.host = some senderId <;> simp [hh]

theorem songEnded_host (room : Room) (roomId senderId : String) (r' : Room)
    (es : List Emit) (h : songEnded room roomId senderId = some (r', es)) :
    r'.host = room.host := by
  unfold songEnded at h
  split at h
  · split at h
    · exact absurd h (by simp)
    · split at h <;>
      · simp only [Option.some.injEq, Prod.mk.injEq] at h
        obtain ⟨h1, -⟩ := h
        subst h1
        rfl
  · simp only [Option.some.injEq, Prod.mk.injEq] at h
    obtain ⟨h1, -⟩ := h
    subst h1
    rfl

/-- C5.  Host disconnect tears the room down: the updated membership
snapshot and then `roomClosed` are emitted to the room (the departing
socket has already left the socket.io room, so these reach exactly the
remaining participants), and the room is deleted from the registry; a
join that then finds no entry for the identifier constructs a fresh room
(empty queue, no current track, not playing, `defaultTheme`, dynamic
flag false) holding just the joiner; a listener disconnect keeps the
room registered. -/
theorem c5_host_disconnect_teardown :
    (∀ (rooms : Registry) (roomId socketId : String) (room : Room),
      jsMapGet rooms roomId = some room → room.host = some socketId →
      handleDisconnect rooms roomId socketId =
        (jsMapDelete rooms roomId,
         [⟨Target.toRoom roomId,
            Payload.userList (mapValues (jsMapDelete room.users socketId))
              (jsMapDelete room.users socketId).length⟩,
          ⟨Target.toRoom roomId, Payload.roomClosed⟩]))
    ∧ (∀ (rooms : Registry) (roomId socketId : String) (room : Room),
        jsMapGet rooms roomId = some room → room.host = some socketId →
        (rooms.map Prod.fst).Nodup →
        jsMapGet (handleDisconnect rooms roomId socketId).1 roomId = none)
    ∧ (∀ (rooms : Registry) (roomId socketId userName : String) (isHost : Bool)
        (now : Nat),
        jsMapGet rooms roomId = none →
        jsMapGet (handleConnection rooms roomId socketId userName isHost now).1
            roomId =
          some { freshRoom socketId isHost now with
                  users := [(socketId, { name := userName, isHost := isHost })] })
    ∧ (∀ (rooms : Registry) (roomId socketId : String) (room : Room),
        jsMapGet rooms roomId = some room → room.host ≠ some socketId →
        jsMapGet (handleDisconnect rooms roomId socketId).1 roomId =
          some { room with users := jsMapDelete room.users socketId }) := by
  have h1 : ∀ (rooms : Registry) (roomId socketId : String) (room : Room),
      jsMapGet rooms roomId = some room → room.host = some socketId →
      handleDisconnect rooms roomId socketId =
        (jsMapDelete rooms roomId,
         [⟨Target.toRoom roomId,
            Payload.userList (mapValues (jsMapDelete room.users socketId))
              (jsMapDelete room.users socketId).length⟩,
          ⟨Target.toRoom roomId, Payload.roomClosed⟩]) := by
    intro rooms roomId socketId room hget hh
    simp [handleDisconnect, hget, hh]
  refine ⟨h1, ?_, ?_, ?_⟩
  · intro rooms roomId socketId room hget hh hnd
    rw [h1 rooms roomId socketId room hget hh]
    exact jsMapGet_delete_self rooms roomId hnd
  · intro rooms roomId socketId userName isHost now hnone
    simp only [handleConnection, hnone]
    rw [jsMapGet_set_self]
    cases isHost <;> simp [freshRoom, jsMapSet]
  · intro rooms roomId socketId room hget hh
    have hne : ({ room with users := jsMapDelete room.users socketId } : Room).host
        ≠ some socketId := hh
    simp only [handleDisconnect, hget]
    rw [if_neg hne]
    exact jsMapGet_set_self rooms roomId _

/-- C5 witness: host "H" of the three-member room in `roomsW` disconnects
(teardown applied at a concrete registry), and a later join on the empty
registry builds the fresh default room. -/
theorem c5_host_disconnect_teardown_witness :
    handleDisconnect roomsW "r" "H" =
      (jsMapDelete roomsW "r",
       [⟨Target.toRoom "r",
          Payload.userList (mapValues (jsMapDelete roomW3.users "H"))
            (jsMapDelete roomW3.users "H").length⟩,
        ⟨Target.toRoom "r", Payload.roomClosed⟩])
    ∧ jsMapGet (handleConnection [] "r" "H2" "h2" true 5).1 "r" =
        some { freshRoom "H2" true 5 with
                users := [("H2", { name := "h2", isHost := true })] } :=
  ⟨c5_host_disconnect_teardown.1 roomsW "r" "H" roomW3 rfl rfl,
   c5_host_disconnect_teardown.2.2.1 [] "r" "H2" "h2" true 5 rfl⟩

/-- C6 counterexample.  A listener joining an unknown room identifier
creates and registers a room whose host identifier is absent — a stable
reachable state that is not "the instant between host loss and
reassignment" (no host was ever lost), refuting the claim that the host
id is absent only in that instant. -/
theorem c6_hostless_room_counterexample :
    jsMapGet (handleConnection [] "r" "L1" "alice" false 0).1 "r" =
      some { freshRoom "L1" false 0 with
              users := [("L1", { name := "alice", isHost := false })] }
    ∧ ({ freshRoom "L1" false 0 with
          users := [("L1", { name := "alice", isHost := false })] } : Room).host
        = none := by
  decide

/-- C6 (amended).  The host identifier is never cleared while a room
exists: every inbound event handler leaves it unchanged, a host-claiming
join sets it, a non-host join preserves it (and creates a hostless room
when the identifier is unknown), and disconnect either deletes the room
or preserves the host of every surviving room.  Hence the host id is
absent exactly in rooms that no host-claiming connection has joined
since creation — not only in a teardown instant. -/
theorem c6_host_presence_amended :
    (∀ (room : Room) (roomId senderId senderName : String) (e : Event)
        (r' : Room) (es : List Emit),
      applyEvent room roomId senderId senderName e = some (r', es) →
      r'.host = room.host)
    ∧ (∀ (rooms : Registry) (roomId socketId userName : String) (now : Nat)
        (r' : Room),
        jsMapGet (handleConnection rooms roomId socketId userName true now).1
          roomId = some r' →
        r'.host = some socketId)
    ∧ (∀ (rooms : Registry) (roomId socketId userName : String) (now : Nat)
        (room r' : Room),
        jsMapGet rooms roomId = some room →
        jsMapGet (handleConnection rooms roomId socketId userName false now).1
          roomId = some r' →
        r'.host = room.host)
    ∧ (∀ (rooms : Registry) (roomId socketId userName : String) (now : Nat)
        (r' : Room),
        jsMapGet rooms roomId = none →
        jsMapGet (handleConnection rooms roomId socketId userName false now).1
          roomId = some r' →
        r'.host = none)
    ∧ (∀ (rooms : Registry) (roomId socketId rid : String) (r' : Room),
        (rid, r') ∈ (handleDisconnect rooms roomId socketId).1 →
        ∃ r₀ : Room, (rid, r₀) ∈ rooms ∧ r'.host = r₀.host) := by
  refine ⟨?_, ?_, ?_, ?_, ?_⟩
  · intro room roomId senderId senderName e r' es happ
    cases e with
    | addSong lk =>
      simp only [applyEvent, Option.some.injEq] at happ
      have h1 : (addSong room roomId senderId senderName lk).1 = r' :=
        congrArg Prod.fst happ
      rw [← h1, addSong_host]
    | updatePlaylist pl =>
      simp only [applyEvent, Option.some.injEq] at happ
      have h1 : (updatePlaylist room roomId senderId pl).1 = r' :=
        congrArg Prod.fst happ
      rw [← h1, updatePlaylist_host]
    | updateTheme m =>
      simp only [applyEvent, Option.some.injEq] at happ
      have h1 : (updateTheme room roomId senderId m).1 = r' :=
        congrArg Prod.fst happ
      rw [← h1, updateTheme_host]
    | toggleDynamicTheme b =>
      simp only [applyEvent, Option.some.injEq] at happ
      have h1 : (toggleDynamicTheme room roomId senderId b).1 = r' :=
        congrArg Prod.fst happ
      rw [← h1, toggleDynamicTheme_host]
    | playbackState st now =>
      simp only [applyEvent, Option.some.injEq] at happ
      have h1 : (playbackState room roomId senderId st now).1 = r' :=
        congrArg Prod.fst happ
      rw [← h1, playbackState_host]
    | songEnded => exact songEnded_host room roomId senderId r' es happ
    | message text ts =>
      simp only [applyEvent, Option.some.injEq] at happ
      have h1 : (messageRelay room roomId senderName text ts).1 = r' :=
        congrArg Prod.fst happ
      rw [← h1]
      rfl
    | requestSync =>
      simp only [applyEvent, Option.some.injEq] at happ
      have h1 : (requestSync room senderId).1 = r' := congrArg Prod.fst happ
      rw [← h1, requestSync_host]
    | syncResponse d =>
      simp only [applyEvent, Option.some.injEq] at happ
      have h1 : (syncResponse room senderId d).1 = r' := congrArg Prod.fst happ
      rw [← h1, syncResponse_host]
  · intro rooms roomId socketId userName now r' hget
    simp only [handleConnection] at hget
    rw [jsMapGet_set_self] at hget
    simp only [Option.some.injEq] at hget
    rw [← hget]
    simp
  · intro rooms roomId socketId userName now room r' hroom hget
    simp only [handleConnection, hroom] at hget
    rw [jsMapGet_set_self] at hget
    simp only [Option.some.injEq] at hget
    rw [← hget]
    simp
  · intro rooms roomId socketId userName now r' hroom hget
    simp only [handleConnection, hroom] at hget
    rw [jsMapGet_set_self] at hget
    simp only [Option.some.injEq] at hget
    rw [← hget]
    simp [freshRoom]
  · intro rooms roomId socketId rid r' hmem
    unfold handleDisconnect at hmem
    cases hg : jsMapGet rooms roomId with
    | none =>
      rw [hg] at hmem
      exact ⟨r', hmem, rfl⟩
    | some room =>
      rw [hg] at hmem
      simp only at hmem
      split at hmem
      · exact ⟨r', mem_of_mem_jsMapDelete _ _ _ hmem, rfl⟩
      · rcases mem_jsMapSet _ _ _ _ hmem with hm | hm
        · exact ⟨r', hm, rfl⟩
        · simp only [Prod.mk.injEq] at hm
          obtain ⟨rfl, rfl⟩ := hm
          exact ⟨room, jsMapGet_mem _ _ _ hg, rfl⟩

/-- C6 witness: the host-claiming join applied at a concrete input (host
"H" creating room "r" on the empty registry). -/
theorem c6_host_presence_amended_witness : hostEmptyRoom.host = some "H" :=
  c6_host_presence_amended.2.1 [] "r" "H" "h" 0 hostEmptyRoom (by decide)

/-- The room reached when "L3" joins `roomsW`'s room reusing the already
present display name "h": the entry is appended regardless. -/
def joinedDup : Room :=
  { roomW3 with users := roomW3.users ++ [("L3", { name := "h", isHost := false })] }

/-- C7.  The server broadcasts the raw membership values with the raw
connection count on every join and disconnect; the client-side rendering
(`uniqueUsers`) lists each display name at most once keeping the first
occurrence, and covers every received name; and a join whose display
name is already present is still admitted (the participant map grows by
one and holds the new connection). -/
theorem c7_membership_snapshot :
    (∀ (l : List User), ((uniqueUsers l).map User.name).Nodup)
    ∧ (∀ (l : List User) (u : User), u ∈ uniqueUsers l →
        u ∈ l ∧ l.find? (fun v => v.name = u.name) = some u)
    ∧ (∀ (l : List User) (u : User), u ∈ l →
        ∃ v ∈ uniqueUsers l, v.name = u.name)
    ∧ (∀ (rooms : Registry) (roomId socketId userName : String) (isHost : Bool)
        (now : Nat) (r' : Room),
        jsMapGet (handleConnection rooms roomId socketId userName isHost now).1
          roomId = some r' →
        ((handleConnection rooms roomId socketId userName isHost now).2).head? =
          some ⟨Target.toRoom roomId,
            Payload.userList (mapValues r'.users) r'.users.length⟩)
    ∧ (∀ (rooms : Registry) (roomId socketId : String) (room : Room),
        jsMapGet rooms roomId = some room →
        ((handleDisconnect rooms roomId socketId).2).head? =
          some ⟨Target.toRoom roomId,
            Payload.userList (mapValues (jsMapDelete room.users socketId))
              (jsMapDelete room.users socketId).length⟩)
    ∧ (∀ (rooms : Registry) (roomId socketId userName : String) (isHost : Bool)
        (now : Nat) (room : Room),
        jsMapGet rooms roomId = some room →
        jsMapGet room.users socketId = none →
        ∀ r' : Room,
          jsMapGet (handleConnection rooms roomId socketId userName isHost now).1
            roomId = some r' →
          r'.users.length = room.users.length + 1
          ∧ jsMapGet r'.users socketId =
              some { name := userName, isHost := isHost }) := by
  refine ⟨?_, ?_, ?_, ?_, ?_, ?_⟩
  · intro l
    exact nodup_names_foldl_dedupStep l [] (by simp)
  · intro l u h
    rcases mem_foldl_dedupStep l [] u h with h1 | ⟨h1, -, h2⟩
    · exact absurd h1 (List.not_mem_nil u)
    · exact ⟨h1, h2⟩
  · intro l u h
    exact name_covered_foldl_dedupStep l [] u h
  · intro rooms roomId socketId userName isHost now r' hget
    simp only [handleConnection] at hget ⊢
    rw [jsMapGet_set_self] at hget
    simp only [Option.some.injEq] at hget
    subst hget
    rfl
  · intro rooms roomId socketId room hget
    unfold handleDisconnect
    rw [hget]
    simp only
    split <;> rfl
  · intro rooms roomId socketId userName isHost now room hroom husers r' hget
    simp only [handleConnection, hroom] at hget
    rw [jsMapGet_set_self] at hget
    simp only [Option.some.injEq] at hget
    subst hget
    constructor
    · cases isHost <;>
        simp [jsMapSet_length_of_get_none room.users socketId _ husers]
    · cases isHost <;> simp [jsMapGet_set_self]

/-- C7 witness: first-seen-wins dedup on a concrete snapshot with a name
collision, and the duplicate-name join "L3"/"h" into `roomsW` applied
concretely. -/
theorem c7_membership_snapshot_witness :
    ((⟨"h", true⟩ : User) ∈ ([⟨"h", true⟩, ⟨"h", false⟩, ⟨"l", false⟩] : List User)
      ∧ List.find? (fun v => v.name = (⟨"h", true⟩ : User).name)
          ([⟨"h", true⟩, ⟨"h", false⟩, ⟨"l", false⟩] : List User) =
            some ⟨"h", true⟩)
    ∧ (joinedDup.users.length = roomW3.users.length + 1
      ∧ jsMapGet joinedDup.users "L3" = some { name := "h", isHost := false }) :=
  ⟨c7_membership_snapshot.2.1 [⟨"h", true⟩, ⟨"h", false⟩, ⟨"l", false⟩]
      ⟨"h", true⟩ (by decide),
   c7_membership_snapshot.2.2.2.2.2 roomsW "r" "L3" "h" false 7 roomW3
      (by decide) (by decide) joinedDup (by decide)⟩

/-- C8.  `requestSync` from a non-host produces exactly one `syncRequest`
targeted at the host connection only (carrying the requester's id, never
a room broadcast), and `syncResponse` from the host produces exactly one
`sync` targeted at the addressed connection only; neither changes room
state. -/
theorem c8_sync_events_are_targeted (room : Room) (senderId h : String)
    (d : SyncMsg) (hh : room.host = some h) :
    (senderId ≠ h →
      requestSync room senderId =
        (room, [⟨Target.toSock (some h), Payload.syncRequest senderId⟩]))
    ∧ syncResponse room h d =
        (room, [⟨Target.toSock (some d.userId),
                  Payload.sync d.currentTime d.isPlaying⟩]) := by
  constructor
  · intro hne
    have hns : ¬ h = senderId := fun hc => hne hc.symm
    have hcond : ¬ room.host = some senderId := by
      rw [hh]
      intro hc
      exact hne (Option.some.inj hc).symm
    simp [requestSync, hcond, hh, hns]
  · simp [syncResponse, hh]

/-- C8 witness: listener "L" requesting sync from `roomAB` and host "H"
answering it, applied concretely. -/
theorem c8_sync_events_are_targeted_witness :
    requestSync roomAB "L" =
      (roomAB, [⟨Target.toSock (some "H"), Payload.syncRequest "L"⟩])
    ∧ syncResponse roomAB "H" { userId := "L", currentTime := 5, isPlaying := true } =
        (roomAB, [⟨Target.toSock (some "L"), Payload.sync 5 true⟩]) :=
  ⟨(c8_sync_events_are_targeted roomAB "L" "H"
      { userId := "L", currentTime := 5, isPlaying := true } rfl).1 (by decide),
   (c8_sync_events_are_targeted roomAB "L" "H"
      { userId := "L", currentTime := 5, isPlaying := true } rfl).2⟩

/-- C9.  A host theme update with a missing (or empty, hence falsy)
required attribute changes nothing and emits nothing; with all six
attributes present it replaces the theme, sets the dynamic flag to
whether the new theme id is the reserved "dynamic" identifier, and
broadcasts `themeUpdate` to the room. -/
theorem c9_theme_update_validation (room : Room) (roomId h : String)
    (msg : ThemeMsg) (hh : room.host = some h) :
    (themeMsgValid msg = false → updateTheme room roomId h msg = (room, []))
    ∧ (themeMsgValid msg = true →
        updateTheme room roomId h msg =
          ({ room with theme := themeOfMsg msg,
                       isDynamicTheme := (themeOfMsg msg).id = "dynamic" },
           [⟨Target.toRoom roomId,
              Payload.themeUpdate (themeOfMsg msg)
                ((themeOfMsg msg).id = "dynamic")⟩])) := by
  constructor
  · intro hv
    simp [updateTheme, hh, hv]
  · intro hv
    simp [updateTheme, hh, hv]

/-- C9 witness: a malformed update (missing `bgColor`) is dropped and a
complete "dynamic" theme is applied, both on `roomAB`. -/
theorem c9_theme_update_validation_witness :
    updateTheme roomAB "r" "H"
      { id := some "neon", name := some "Neon", bgColor := none,
        textColor := some "t", accentColor := some "a",
        secondaryColor := some "s" } = (roomAB, [])
    ∧ updateTheme roomAB "r" "H"
        { id := some "dynamic", name := some "Dyn", bgColor := some "b",
          textColor := some "t", accentColor := some "a",
          secondaryColor := some "s" } =
      ({ roomAB with
          theme := themeOfMsg
            { id := some "dynamic", name := some "Dyn", bgColor := some "b",
              textColor := some "t", accentColor := some "a",
              secondaryColor := some "s" },
          isDynamicTheme :=
            (themeOfMsg
              { id := some "dynamic", name := some "Dyn", bgColor := some "b",
                textColor := some "t", accentColor := some "a",
                secondaryColor := some "s" }).id = "dynamic" },
       [⟨Target.toRoom "r",
          Payload.themeUpdate
            (themeOfMsg
              { id := some "dynamic", name := some "Dyn", bgColor := some "b",
                textColor := some "t", accentColor := some "a",
                secondaryColor := some "s" })
            ((themeOfMsg
              { id := some "dynamic", name := some "Dyn", bgColor := some "b",
                textColor := some "t", accentColor := some "a",
                secondaryColor := some "s" }).id = "dynamic")⟩]) :=
  ⟨(c9_theme_update_validation roomAB "r" "H"
      { id := some "neon", name := some "Neon", bgColor := none,
        textColor := some "t", accentColor := some "a",
        secondaryColor := some "s" } rfl).1 (by decide),
   (c9_theme_update_validation roomAB "r" "H"
      { id := some "dynamic", name := some "Dyn", bgColor := some "b",
        textColor := some "t", accentColor := some "a",
        secondaryColor := some "s" } rfl).2 (by decide)⟩

/-- C10.  A host `updatePlaylist` changes only the queue: every other
room attribute (current track — even when absent from the submitted
queue —, playback flag, position, last-update time, theme, dynamic flag,
host, participants) is unchanged, and exactly one `playlistUpdate` room
broadcast is produced. -/
theorem c10_updatePlaylist_frame (room : Room) (roomId h : String)
    (pl : List Song) (hh : room.host = some h) :
    (updatePlaylist room roomId h pl).1.playlist = pl
    ∧ (updatePlaylist room roomId h pl).1.currentSong = room.currentSong
    ∧ (updatePlaylist room roomId h pl).1.isPlaying = room.isPlaying
    ∧ (updatePlaylist room roomId h pl).1.currentTime = room.currentTime
    ∧ (updatePlaylist room roomId h pl).1.theme = room.theme
    ∧ (updatePlaylist room roomId h pl).1.isDynamicTheme = room.isDynamicTheme
    ∧ (updatePlaylist room roomId h pl).1.host = room.host
    ∧ (updatePlaylist room roomId h pl).1.users = room.users
    ∧ (updatePlaylist room roomId h pl).1.lastUpdateTime = room.lastUpdateTime
    ∧ (updatePlaylist room roomId h pl).2 =
        [⟨Target.toRoom roomId, Payload.playlistUpdate pl⟩] := by
  simp [updatePlaylist, hh]

/-- C10 witness: host "H" replaces `roomAB`'s queue with the empty list;
`songA` stays current despite being absent from the new queue. -/
theorem c10_updatePlaylist_frame_witness :
    (updatePlaylist roomAB "r" "H" []).1.playlist = []
    ∧ (updatePlaylist roomAB "r" "H" []).1.currentSong = roomAB.currentSong :=
  ⟨(c10_updatePlaylist_frame roomAB "r" "H" [] rfl).1,
   (c10_updatePlaylist_frame roomAB "r" "H" [] rfl).2.1⟩

end RadioParty
